import Mathlib

/-!
Verification of the word-extraction pipeline of picdicextract.

The definitions below are a shallow embedding of the repository code:

* utils/text.py         -> wordChar … validate_text
* utils/tesseract.py    -> TessToken, tokenKept, run_tesseract_ocr
* word_extraction_pipeline.py (process_single_roi, and the per-ROI
  cascade of process_zip_file) -> process_single_roi, resolveROI,
  processOneRoi, processROIs

Image pixel data and the external OCR engine are abstracted: each
cascade stage is represented by the (text, box) pair the OCR engine
returns for that stage image, and the external lexicon
(enchant Dict check) is an abstract predicate on strings.
Confidences are modelled with Int (the code compares a float
confidence only against 0).  The character classes of the Python
regular expressions are modelled over ASCII.
-/

namespace PicdicExtract

/-! ## Tokenizer of utils/text.py

The code tokenizes with the Python pattern that matches maximal runs
of word characters, apostrophes and hyphens delimited by word
boundaries.  wordChar models the backslash-w class over ASCII, and
scanFuel models findall: scan left to right, at each position that is
a word boundary try the greedy run of class characters, backtracking
to the longest cut that ends on a word boundary. -/

def wordChar (c : Char) : Bool := c.isAlpha || c.isDigit || c == '_'

def apostrophe : Char := Char.ofNat 39

def classChar (c : Char) : Bool := wordChar c || c == apostrophe || c == '-'

def isWordOpt : Option Char → Bool
  | none => false
  | some c => wordChar c

/-- Word boundary between the previous character (none at the string
start) and the character at the current position. -/
def startBoundary (prev : Option Char) (c : Char) : Bool :=
  isWordOpt prev != wordChar c

/-- Longest cut of the class-character run r that ends on a word
boundary; next is the first character after the run (none at the end
of the string).  Returns the matched token and the rest of the run. -/
def longestMatchAux : List Char → Option Char → Option (List Char × List Char)
  | [], _ => none
  | c :: rs, next =>
    match longestMatchAux rs next with
    | some (tok, rem) => some (c :: tok, rem)
    | none =>
      let after := match rs with
        | [] => next
        | d :: _ => some d
      if wordChar c != isWordOpt after then some ([c], rs) else none

/-- One left-to-right findall scan.  Fuel is an upper bound on the
number of steps; every step consumes at least one character, so fuel
equal to the length of the string suffices. -/
def scanFuel : Nat → Option Char → List Char → List (List Char)
  | 0, _, _ => []
  | Nat.succ fuel, prev, l =>
    match l with
    | [] => []
    | c :: rest =>
      if classChar c && startBoundary prev c then
        match longestMatchAux (List.takeWhile classChar (c :: rest))
            (List.dropWhile classChar (c :: rest)).head? with
        | some (tok, rem) =>
            tok :: scanFuel fuel tok.getLast? (rem ++ List.dropWhile classChar (c :: rest))
        | none => scanFuel fuel (some c) rest
      else scanFuel fuel (some c) rest

def pyFindTokens (s : String) : List (List Char) :=
  scanFuel s.length none s.data

/-! ## validate_text of utils/text.py -/

/-- Python str.strip with no argument: remove leading and trailing
whitespace. -/
def pyTrim (s : String) : String :=
  List.asString
    (((s.data.dropWhile Char.isWhitespace).reverse.dropWhile Char.isWhitespace).reverse)

/-- Python str.isdigit for ASCII input. -/
def pyIsDigit (tok : List Char) : Bool := !tok.isEmpty && tok.all Char.isDigit

def stripSet (c : Char) : Bool := c == apostrophe || c == '-'

/-- Python str.strip with the apostrophe-hyphen stripping set:
remove every leading and trailing apostrophe or hyphen. -/
def pyStrip (tok : List Char) : List Char :=
  ((tok.dropWhile stripSet).reverse.dropWhile stripSet).reverse

/-- The body of the token loop of validate_text: purely numeric
tokens are skipped, the remaining token is kept when its stripped
form is in the exceptions set or passes the lexicon check. -/
def keepToken (dict : String → Bool) (exceptions : List String) (tok : List Char) : Bool :=
  !pyIsDigit tok &&
    (exceptions.contains (List.asString (pyStrip tok)) || dict (List.asString (pyStrip tok)))

/-- validate_text: tokenize, keep the valid tokens (in original,
unstripped form, as the code appends token not cleaned_token), join
with single spaces. -/
def validate_text (dict : String → Bool) (exceptions : List String) (text : String) : String :=
  String.intercalate " " (((pyFindTokens text).filter (keepToken dict exceptions)).map List.asString)

/-- The exceptions set the pipeline passes at every call site. -/
def defaultExceptions : List String := ["&", "-", String.singleton apostrophe]

/-! ## OCR adapter of utils/tesseract.py

The external engine output (pytesseract image_to_data) is the list of
token detections; each detection carries text, confidence and a box
given by left, top, width, height.  The code compares the float
confidence only against 0, modelled with Int. -/

structure Box4 where
  left : Int
  top : Int
  right : Int
  bottom : Int
deriving DecidableEq

structure TessToken where
  text : String
  conf : Int
  left : Int
  top : Int
  width : Int
  height : Int
deriving DecidableEq

/-- The filter of the detection loop: non-empty text after stripping
and confidence strictly positive. -/
def tokenKept (d : TessToken) : Bool :=
  pyTrim d.text != "" && decide (0 < d.conf)

/-- What the loop appends for a kept detection: the stripped text and
the box (left, top, left+width, top+height). -/
def acceptedToken (d : TessToken) : String × Box4 :=
  (pyTrim d.text, Box4.mk d.left d.top (d.left + d.width) (d.top + d.height))

def listMinI (x : Int) (xs : List Int) : Int := xs.foldl min x

def listMaxI (x : Int) (xs : List Int) : Int := xs.foldl max x

/-- run_tesseract_ocr: filter the detections, return ("", none) when
nothing is kept, otherwise the space-joined texts and the union of
the kept boxes padded by 5 px, with only left and top clamped at 0. -/
def run_tesseract_ocr (data : List TessToken) : String × Option Box4 :=
  let accepted := data.filterMap fun d => if tokenKept d then some (acceptedToken d) else none
  match accepted with
  | [] => ("", none)
  | p :: ps =>
    (String.intercalate " " (p.1 :: ps.map Prod.fst),
     some (Box4.mk
       (max 0 (listMinI p.2.left (ps.map fun q => q.2.left) - 5))
       (max 0 (listMinI p.2.top (ps.map fun q => q.2.top) - 5))
       (listMaxI p.2.right (ps.map fun q => q.2.right) + 5)
       (listMaxI p.2.bottom (ps.map fun q => q.2.bottom) + 5)))

/-! ## Region isolation: process_single_roi of word_extraction_pipeline.py

Pixel buffers are abstracted away: the embedding returns the type
label and the bounding box; in the code the returned image is None
exactly when the returned bbox is None, and the callers skip on None.
For the freehand branch with at least two vertices the polygon
bounds are the vertex minima and maxima; the rasterized mask only
affects pixel content, which is abstracted. -/

inductive RoiType where
  | rect
  | freehand
  | other (name : String)
deriving DecidableEq

structure Roi where
  roitype : RoiType
  left : Int
  top : Int
  right : Int
  bottom : Int
  coords : Option (List (Int × Int))
deriving DecidableEq

def process_single_roi (width height : Int) (roi : Roi) : String × Option Box4 :=
  match roi.roitype with
  | RoiType.rect =>
      ("Rectangular", some (Box4.mk
        (max 0 (roi.left - 5)) (max 0 (roi.top - 5))
        (min width (roi.right + 5)) (min height (roi.bottom + 5))))
  | RoiType.freehand =>
      match roi.coords with
      | none => ("Freehand", none)
      | some cs =>
          if cs.length < 2 then ("Freehand", none)
          else
            match cs with
            | [] => ("Freehand", none)
            | (x, y) :: rest =>
                ("Freehand", some (Box4.mk
                  (max 0 (listMinI x (rest.map Prod.fst) - 5))
                  (max 0 (listMinI y (rest.map Prod.snd) - 5))
                  (min width (listMaxI x (rest.map Prod.fst) + 5))
                  (min height (listMaxI y (rest.map Prod.snd) + 5))))
  | RoiType.other name => (name, none)

/-! ## Per-ROI resolution cascade of process_zip_file

Each stage image (otsu output of remove_background, its 2x2 erosion
with 2 iterations, plain grayscale) is abstracted to the OCR result
the engine returns on it; a StageResult is the pair run_tesseract_ocr
produces for that stage.  resolveROI is the if/else chain of
process_zip_file lines 144-179, and its second component is the list
of stages whose image transform and OCR call are actually reached by
the control flow, in order. -/

structure StageResult where
  text : String
  box : Option Box4
deriving DecidableEq

structure Outcome where
  method : String
  text : String
  box : Option Box4
deriving DecidableEq

/-- The acceptance gate the code applies to each stage: the validated
text is non-empty after stripping and the OCR box is present. -/
def stageAccepted (dict : String → Bool) (r : StageResult) : Bool :=
  pyTrim (validate_text dict defaultExceptions r.text) != "" && r.box.isSome

/-- The cascade of process_zip_file.  On exhaustion the code only
sets ocr_method to "none": ocr_text and ocr_box_rel keep the values
assigned at the first (otsu) stage. -/
def resolveROI (dict : String → Bool) (r1 r2 r3 : StageResult) : Outcome × List String :=
  if stageAccepted dict r1 then
    ({ method := "otsu", text := validate_text dict defaultExceptions r1.text,
       box := r1.box }, ["otsu"])
  else if stageAccepted dict r2 then
    ({ method := "eroded", text := validate_text dict defaultExceptions r2.text,
       box := r2.box }, ["otsu", "eroded"])
  else if stageAccepted dict r3 then
    ({ method := "fallback", text := validate_text dict defaultExceptions r3.text,
       box := r3.box }, ["otsu", "eroded", "fallback"])
  else
    ({ method := "none", text := r1.text, box := r1.box }, ["otsu", "eroded", "fallback"])

/-- The fields of the result dictionary appended per ROI that the
claims are about (page, roi_file and debug_image are file-name
bookkeeping outside the embedding). -/
structure Record where
  roi_type : String
  ocr_text : String
  ocr_bbox : Option Box4
  ocr_method : String
deriving DecidableEq

/-- One iteration of the ROI loop of process_zip_file: isolate the
region, skip when no image or bbox is produced, otherwise run the
cascade and convert the OCR box to page coordinates.  The returned
list is the stage trace of resolveROI. -/
def processOneRoi (dict : String → Bool) (width height : Int) (roi : Roi)
    (r1 r2 r3 : StageResult) : Option (Record × List String) :=
  match process_single_roi width height roi with
  | (_, none) => none
  | (tname, some bb) =>
    let out := (resolveROI dict r1 r2 r3).1
    let att := (resolveROI dict r1 r2 r3).2
    let gbox := match out.box with
      | some rel => some (Box4.mk (bb.left + rel.left) (bb.top + rel.top)
          (bb.left + rel.right) (bb.top + rel.bottom))
      | none => none
    some ({ roi_type := tname, ocr_text := out.text, ocr_bbox := gbox,
            ocr_method := out.method }, att)

/-- One ROI of the batch together with the OCR results of its three
candidate stage images. -/
structure RoiInput where
  roi : Roi
  r1 : StageResult
  r2 : StageResult
  r3 : StageResult
deriving DecidableEq

/-- The ROI loop of process_zip_file: ROIs whose isolation yields no
image or bbox are skipped (continue), the others append a record. -/
def processROIs (dict : String → Bool) (width height : Int) :
    List RoiInput → List (Record × List String)
  | [] => []
  | x :: xs =>
    match processOneRoi dict width height x.roi x.r1 x.r2 x.r3 with
    | none => processROIs dict width height xs
    | some rec => rec :: processROIs dict width height xs

/-! ## Helper lemmas -/

lemma wordChar_classChar (c : Char) (h : wordChar c = true) : classChar c = true := by
  unfold classChar
  rw [h]
  rfl

lemma stripSet_not_word (c : Char) (h : stripSet c = true) : wordChar c = false := by
  simp only [stripSet, Bool.or_eq_true, beq_iff_eq] at h
  rcases h with h1 | h1
  · subst h1; decide
  · subst h1; decide

lemma head?_dropWhile_not (p : Char → Bool) :
    ∀ (l : List Char) (c : Char), (l.dropWhile p).head? = some c → p c = false := by
  intro l
  induction l with
  | nil => intro c h; simp [List.dropWhile] at h
  | cons a as ih =>
    intro c h
    cases hp : p a with
    | true =>
      rw [List.dropWhile_cons, if_pos hp] at h
      exact ih c h
    | false =>
      rw [List.dropWhile_cons, if_neg (by simp [hp])] at h
      simp at h
      rw [← h]
      exact hp

lemma isWordOpt_head_dropWhile (l : List Char) :
    isWordOpt (List.dropWhile classChar l).head? = false := by
  cases h : (List.dropWhile classChar l).head? with
  | none => rfl
  | some c =>
    have hc := head?_dropWhile_not classChar l c h
    show wordChar c = false
    cases hw : wordChar c with
    | false => rfl
    | true => rw [wordChar_classChar c hw] at hc; exact Bool.noConfusion hc

lemma longestMatchAux_isSome (next : Option Char) (hnext : isWordOpt next = false) :
    ∀ (r : List Char), (∃ c ∈ r, wordChar c = true) →
      ∃ tok rem, longestMatchAux r next = some (tok, rem) := by
  intro r
  induction r with
  | nil => intro h; simp at h
  | cons c rs ih =>
    intro h
    cases hrec : longestMatchAux rs next with
    | some p =>
      refine ⟨c :: p.1, p.2, ?_⟩
      simp [longestMatchAux, hrec]
    | none =>
      have hrs : ∀ d ∈ rs, wordChar d = false := by
        intro d hd
        cases hwd : wordChar d with
        | false => rfl
        | true =>
          obtain ⟨tok, rem, hsome⟩ := ih ⟨d, hd, hwd⟩
          rw [hrec] at hsome
          exact Option.noConfusion hsome
      have hc : wordChar c = true := by
        obtain ⟨d, hd, hwd⟩ := h
        rcases List.mem_cons.mp hd with rfl | hd'
        · exact hwd
        · rw [hrs d hd'] at hwd; exact Bool.noConfusion hwd
      refine ⟨[c], rs, ?_⟩
      simp only [longestMatchAux, hrec]
      cases rs with
      | nil => simp [hc, hnext]
      | cons d rs' => simp [hc, isWordOpt, hrs d (by simp)]

lemma longestMatchAux_word (next : Option Char) (hnext : isWordOpt next = false) :
    ∀ (r tok rem : List Char),
      longestMatchAux r next = some (tok, rem) → ∃ c ∈ tok, wordChar c = true := by
  intro r
  induction r with
  | nil => intro tok rem h; simp [longestMatchAux] at h
  | cons c rs ih =>
    intro tok rem h
    simp only [longestMatchAux] at h
    cases hrec : longestMatchAux rs next with
    | some p =>
      obtain ⟨t1, r1⟩ := p
      rw [hrec] at h
      simp only [Option.some.injEq, Prod.mk.injEq] at h
      obtain ⟨d, hd, hwd⟩ := ih t1 r1 hrec
      refine ⟨d, ?_, hwd⟩
      rw [← h.1]
      exact List.mem_cons_of_mem c hd
    | none =>
      rw [hrec] at h
      cases rs with
      | nil =>
        cases hcw : wordChar c with
        | true =>
          simp only [hcw, hnext] at h
          simp at h
          refine ⟨c, ?_, hcw⟩
          rw [← h.1]
          simp
        | false =>
          simp [hcw, hnext] at h
      | cons d rs' =>
        cases hdw : wordChar d with
        | true =>
          obtain ⟨t2, r2, hsome⟩ :=
            longestMatchAux_isSome next hnext (d :: rs') ⟨d, by simp, hdw⟩
          rw [hrec] at hsome
          exact Option.noConfusion hsome
        | false =>
          cases hcw : wordChar c with
          | true =>
            simp only [hcw, isWordOpt, hdw] at h
            simp at h
            refine ⟨c, ?_, hcw⟩
            rw [← h.1]
            simp
          | false =>
            simp [hcw, isWordOpt, hdw] at h

lemma scanFuel_word :
    ∀ (fuel : Nat) (prev : Option Char) (l tok : List Char),
      tok ∈ scanFuel fuel prev l → ∃ c ∈ tok, wordChar c = true := by
  intro fuel
  induction fuel with
  | zero => intro prev l tok h; simp [scanFuel] at h
  | succ fuel ih =>
    intro prev l tok h
    cases l with
    | nil => simp [scanFuel] at h
    | cons c rest =>
      simp only [scanFuel] at h
      by_cases hb : (classChar c && startBoundary prev c) = true
      · rw [if_pos hb] at h
        cases hm : longestMatchAux (List.takeWhile classChar (c :: rest))
            (List.dropWhile classChar (c :: rest)).head? with
        | none =>
          rw [hm] at h
          exact ih (some c) rest tok h
        | some p =>
          obtain ⟨t1, r1⟩ := p
          rw [hm] at h
          simp only [List.mem_cons] at h
          rcases h with heq | h'
          · rw [heq]
            exact longestMatchAux_word _ (isWordOpt_head_dropWhile (c :: rest)) _ t1 r1 hm
          · exact ih _ _ tok h'
      · rw [if_neg hb] at h
        exact ih (some c) rest tok h

lemma pyFindTokens_word (s : String) :
    ∀ tok ∈ pyFindTokens s, ∃ c ∈ tok, wordChar c = true := by
  intro tok h
  exact scanFuel_word s.length none s.data tok h

lemma dropWhile_stripSet_word :
    ∀ (l : List Char), (∃ c ∈ l, wordChar c = true) →
      ∃ c ∈ l.dropWhile stripSet, wordChar c = true := by
  intro l
  induction l with
  | nil => intro h; simp at h
  | cons a as ih =>
    intro h
    cases hs : stripSet a with
    | true =>
      rw [List.dropWhile_cons, if_pos hs]
      apply ih
      obtain ⟨d, hd, hwd⟩ := h
      rcases List.mem_cons.mp hd with rfl | hd'
      · rw [stripSet_not_word d hs] at hwd; exact Bool.noConfusion hwd
      · exact ⟨d, hd', hwd⟩
    | false =>
      rw [List.dropWhile_cons, if_neg (by simp [hs])]
      exact h

lemma pyStrip_word (l : List Char) (h : ∃ c ∈ l, wordChar c = true) :
    ∃ c ∈ pyStrip l, wordChar c = true := by
  unfold pyStrip
  have h1 := dropWhile_stripSet_word l h
  have h2 : ∃ c ∈ (l.dropWhile stripSet).reverse, wordChar c = true := by
    obtain ⟨c, hc, hw⟩ := h1
    exact ⟨c, List.mem_reverse.mpr hc, hw⟩
  obtain ⟨c, hc, hw⟩ := dropWhile_stripSet_word _ h2
  exact ⟨c, List.mem_reverse.mpr hc, hw⟩

lemma word_ne_single (m : List Char) (h : ∃ c ∈ m, wordChar c = true)
    (ch : Char) (hch : wordChar ch = false) : List.asString m ≠ String.singleton ch := by
  intro he
  obtain ⟨c, hc, hw⟩ := h
  have hm : m = [ch] := by
    have hd := congrArg String.data he
    simpa [List.asString, String.singleton] using hd
  rw [hm] at hc
  simp at hc
  subst hc
  rw [hch] at hw
  exact Bool.noConfusion hw

lemma contains_defaultExceptions_false (m : List Char) (h : ∃ c ∈ m, wordChar c = true) :
    defaultExceptions.contains (List.asString m) = false := by
  have h1 : List.asString m ≠ "&" := by
    have he : ("&" : String) = String.singleton '&' := by decide
    rw [he]; exact word_ne_single m h '&' (by decide)
  have h2 : List.asString m ≠ "-" := by
    have he : ("-" : String) = String.singleton '-' := by decide
    rw [he]; exact word_ne_single m h '-' (by decide)
  have h3 : List.asString m ≠ String.singleton apostrophe :=
    word_ne_single m h apostrophe (by decide)
  simp [defaultExceptions, h1, h2, h3]

lemma filter_congr_mem {α : Type} (p q : α → Bool) :
    ∀ (l : List α), (∀ x ∈ l, p x = q x) → l.filter p = l.filter q := by
  intro l
  induction l with
  | nil => intro _; rfl
  | cons a as ih =>
    intro h
    have ha := h a (by simp)
    have has := ih fun x hx => h x (List.mem_cons_of_mem a hx)
    simp [List.filter_cons, ha, has]

lemma filterMap_if_eq_map_filter {α β : Type} (p : α → Bool) (g : α → β) :
    ∀ (l : List α),
      (l.filterMap fun d => if p d then some (g d) else none) = (l.filter p).map g := by
  intro l
  induction l with
  | nil => rfl
  | cons a as ih =>
    cases hp : p a with
    | true => simp [List.filterMap_cons, List.filter_cons, hp, ih]
    | false => simp [List.filterMap_cons, List.filter_cons, hp, ih]

/-! ## Claim theorems -/

/-- Claim C10: for every input string, the result of validate_text is
independent of whether the exception set consisting of ampersand,
hyphen and apostrophe is supplied: every token the tokenizer yields
contains at least one word character, which survives stripping leading
and trailing hyphens and apostrophes, so no cleaned token is ever a
member of the exception set, and validation is decided by the numeric
check and the lexicon alone (here: the result with the default
exception set equals the result with the empty exception set). -/
theorem c10_exceptions_immaterial (dict : String → Bool) (s : String) :
    (∀ tok ∈ pyFindTokens s,
        defaultExceptions.contains (List.asString (pyStrip tok)) = false) ∧
    validate_text dict defaultExceptions s = validate_text dict [] s := by
  have hcon : ∀ tok ∈ pyFindTokens s,
      defaultExceptions.contains (List.asString (pyStrip tok)) = false := by
    intro tok htok
    exact contains_defaultExceptions_false _ (pyStrip_word tok (pyFindTokens_word s tok htok))
  refine ⟨hcon, ?_⟩
  unfold validate_text
  have hfilter : (pyFindTokens s).filter (keepToken dict defaultExceptions) =
      (pyFindTokens s).filter (keepToken dict []) := by
    apply filter_congr_mem
    intro tok htok
    unfold keepToken
    rw [hcon tok htok]
    simp
  rw [hfilter]

/-- Witness for C10 at a concrete token and string. -/
theorem c10_exceptions_immaterial_witness :
    defaultExceptions.contains (List.asString (pyStrip (String.data "cat"))) = false ∧
    validate_text (fun t => t == "cat") defaultExceptions "-cat- 42" =
      validate_text (fun t => t == "cat") [] "-cat- 42" := by
  constructor
  · exact (c10_exceptions_immaterial (fun t => t == "cat") "-cat- 42").1
      (String.data "cat") (by decide)
  · exact (c10_exceptions_immaterial (fun t => t == "cat") "-cat- 42").2

/-- Claim C5: for every rectangular ROI the isolated bbox is the
rectangle padded by 5 px per side and clamped to the page, and the
concrete rectangle (100,50,180,90) on a 500x400 page yields
(95,45,185,95). -/
theorem c5_rect_bbox (w h l t r b : Int) (cs : Option (List (Int × Int))) :
    process_single_roi w h
        { roitype := RoiType.rect, left := l, top := t, right := r, bottom := b,
          coords := cs } =
      ("Rectangular", some (Box4.mk (max 0 (l - 5)) (max 0 (t - 5))
        (min w (r + 5)) (min h (b + 5)))) ∧
    process_single_roi 500 400
        { roitype := RoiType.rect, left := 100, top := 50, right := 180, bottom := 90,
          coords := none } =
      ("Rectangular", some (Box4.mk 95 45 185 95)) := by
  constructor
  · rfl
  · decide

/-- Counterexample to claim C9: on the single detection
(text cat, conf 90, left 10, top 10, width 30, height 15) the adapter
does not return the box (5,5,50,30) stated by the claim. -/
theorem c9_combined_box_counterexample :
    run_tesseract_ocr
        [{ text := "cat", conf := 90, left := 10, top := 10, width := 30, height := 15 }] ≠
      ("cat", some (Box4.mk 5 5 50 30)) := by decide

/-- Claim C9 as amended: the adapter returns text cat with box
(5,5,45,30), that is (10-5, 10-5, (10+30)+5, (10+15)+5). -/
theorem c9_combined_box_actual :
    run_tesseract_ocr
        [{ text := "cat", conf := 90, left := 10, top := 10, width := 30, height := 15 }] =
      ("cat", some (Box4.mk 5 5 45 30)) := by decide

/-- Claim C1 as amended: the cascade consists of exactly three named
stages tried in the fixed order otsu, eroded, fallback; the stage
trace of every resolution is one of the three initial segments of
that list. -/
theorem c1_cascade_three_stages (dict : String → Bool) (r1 r2 r3 : StageResult) :
    (resolveROI dict r1 r2 r3).2 = ["otsu"] ∨
    (resolveROI dict r1 r2 r3).2 = ["otsu", "eroded"] ∨
    (resolveROI dict r1 r2 r3).2 = ["otsu", "eroded", "fallback"] := by
  unfold resolveROI
  by_cases h1 : stageAccepted dict r1 = true
  · rw [if_pos h1]; exact Or.inl rfl
  · rw [if_neg h1]
    by_cases h2 : stageAccepted dict r2 = true
    · rw [if_pos h2]; exact Or.inr (Or.inl rfl)
    · rw [if_neg h2]
      by_cases h3 : stageAccepted dict r3 = true
      · rw [if_pos h3]; exact Or.inr (Or.inr rfl)
      · rw [if_neg h3]; exact Or.inr (Or.inr rfl)

/-- Counterexample to claim C1: a resolution that exhausts the
cascade attempts exactly the stages otsu, eroded, fallback, which is
not the five-stage list (with croptop10 and croptop20) stated by the
claim. -/
theorem c1_five_stage_counterexample :
    (resolveROI (fun _ => false) ⟨"", none⟩ ⟨"", none⟩ ⟨"", none⟩).2 =
        ["otsu", "eroded", "fallback"] ∧
    (["otsu", "eroded", "fallback"] : List String) ≠
        ["otsu", "eroded", "fallback", "croptop10", "croptop20"] := by
  refine ⟨by decide, by decide⟩

/-- Counterexample to claim C2: with a lexicon containing cat, the
validator does not reject the string cat 123 — it returns the
non-empty filtered string, and the acceptance gate of the pipeline
accepts the candidate when a box is present. -/
theorem c2_whole_string_counterexample :
    validate_text (fun t => t == "cat") defaultExceptions "cat 123" ≠ "" ∧
    stageAccepted (fun t => t == "cat")
        { text := "cat 123", box := some (Box4.mk 0 0 1 1) } = true := by
  refine ⟨by decide, by decide⟩

/-- Claim C2 as amended: the validator filters tokens rather than
failing the whole string; for every lexicon containing cat, the input
cat 123 validates to cat, and the candidate is accepted by the
pipeline gate whenever its OCR box is present. -/
theorem c2_filtering_validator (dict : String → Bool) (box : Box4)
    (h : dict "cat" = true) :
    validate_text dict defaultExceptions "cat 123" = "cat" ∧
    stageAccepted dict { text := "cat 123", box := some box } = true := by
  have htok : pyFindTokens "cat 123" = [['c', 'a', 't'], ['1', '2', '3']] := by decide
  have h1 : keepToken dict defaultExceptions ['c', 'a', 't'] = true := by
    unfold keepToken
    have hd : dict (List.asString (pyStrip ['c', 'a', 't'])) = true := by
      have he : List.asString (pyStrip ['c', 'a', 't']) = "cat" := by decide
      rw [he]; exact h
    rw [hd]
    decide
  have h2 : keepToken dict defaultExceptions ['1', '2', '3'] = false := by
    unfold keepToken
    have hd : pyIsDigit ['1', '2', '3'] = true := by decide
    rw [hd]
    rfl
  have hfil : (pyFindTokens "cat 123").filter (keepToken dict defaultExceptions) =
      [['c', 'a', 't']] := by
    rw [htok, List.filter_cons, h1, List.filter_cons, h2]
    simp
  have hv : validate_text dict defaultExceptions "cat 123" = "cat" := by
    unfold validate_text
    rw [hfil]
    decide
  refine ⟨hv, ?_⟩
  unfold stageAccepted
  rw [hv]
  simp [pyTrim]
  decide

/-- Witness for C2 at a concrete lexicon and box. -/
theorem c2_filtering_validator_witness :
    validate_text (fun t => t == "cat") defaultExceptions "cat 123" = "cat" ∧
    stageAccepted (fun t => t == "cat")
        { text := "cat 123", box := some (Box4.mk 2 3 4 5) } = true :=
  c2_filtering_validator (fun t => t == "cat") (Box4.mk 2 3 4 5) (by decide)

/-- Counterexample to claim C3: a region whose cascade runs to
exhaustion can emit a record with strategy none but a non-empty final
text and a present page bbox, because the code never resets ocr_text
and ocr_box_rel from the values of the first (otsu) stage. -/
theorem c3_exhaustion_counterexample :
    processOneRoi (fun _ => false) 500 400
        { roitype := RoiType.rect, left := 100, top := 50, right := 180, bottom := 90,
          coords := none }
        ⟨"123", some (Box4.mk 1 2 3 4)⟩ ⟨"", none⟩ ⟨"", none⟩ =
      some ({ roi_type := "Rectangular", ocr_text := "123",
              ocr_bbox := some (Box4.mk 96 47 98 49), ocr_method := "none" },
            ["otsu", "eroded", "fallback"]) ∧
    ("123" : String) ≠ "" ∧ some (Box4.mk 96 47 98 49) ≠ (none : Option Box4) := by
  refine ⟨by decide, by decide, by decide⟩

/-- Claim C3 as amended: when every stage fails the gate, the outcome
has strategy none, but the final text and box are the raw otsu-stage
OCR text and box (so they are empty and none only when the otsu stage
itself produced an empty text and no box). -/
theorem c3_exhaustion_keeps_otsu_raw (dict : String → Bool) (r1 r2 r3 : StageResult)
    (h1 : stageAccepted dict r1 = false) (h2 : stageAccepted dict r2 = false)
    (h3 : stageAccepted dict r3 = false) :
    resolveROI dict r1 r2 r3 =
      ({ method := "none", text := r1.text, box := r1.box },
       ["otsu", "eroded", "fallback"]) := by
  unfold resolveROI
  rw [if_neg (by simp [h1]), if_neg (by simp [h2]), if_neg (by simp [h3])]

/-- Witness for C3 (amended) at concrete stage results. -/
theorem c3_exhaustion_keeps_otsu_raw_witness :
    resolveROI (fun _ => false) ⟨"xy", some (Box4.mk 1 2 3 4)⟩ ⟨"", none⟩ ⟨"", none⟩ =
      ({ method := "none", text := "xy", box := some (Box4.mk 1 2 3 4) },
       ["otsu", "eroded", "fallback"]) :=
  c3_exhaustion_keeps_otsu_raw _ _ _ _ (by decide) (by decide) (by decide)

/-- Claim C4: once a stage passes the gate (validated text non-empty
and box present), no later stage is reached by the control flow — the
stage trace stops at the winning stage — and that stage is recorded
as the method. -/
theorem c4_first_success_short_circuit (dict : String → Bool) (r1 r2 r3 : StageResult) :
    (stageAccepted dict r1 = true →
      (resolveROI dict r1 r2 r3).2 = ["otsu"] ∧
      (resolveROI dict r1 r2 r3).1.method = "otsu") ∧
    (stageAccepted dict r1 = false → stageAccepted dict r2 = true →
      (resolveROI dict r1 r2 r3).2 = ["otsu", "eroded"] ∧
      (resolveROI dict r1 r2 r3).1.method = "eroded") ∧
    (stageAccepted dict r1 = false → stageAccepted dict r2 = false →
        stageAccepted dict r3 = true →
      (resolveROI dict r1 r2 r3).2 = ["otsu", "eroded", "fallback"] ∧
      (resolveROI dict r1 r2 r3).1.method = "fallback") := by
  refine ⟨fun h1 => ?_, fun h1 h2 => ?_, fun h1 h2 h3 => ?_⟩
  · unfold resolveROI; rw [if_pos h1]; exact ⟨rfl, rfl⟩
  · unfold resolveROI; rw [if_neg (by simp [h1]), if_pos h2]; exact ⟨rfl, rfl⟩
  · unfold resolveROI
    rw [if_neg (by simp [h1]), if_neg (by simp [h2]), if_pos h3]
    exact ⟨rfl, rfl⟩

/-- Witness for C4: a first-stage success at concrete inputs. -/
theorem c4_first_success_short_circuit_witness :
    (resolveROI (fun t => t == "cat")
        ⟨"cat", some (Box4.mk 0 0 1 1)⟩ ⟨"", none⟩ ⟨"", none⟩).2 = ["otsu"] ∧
    (resolveROI (fun t => t == "cat")
        ⟨"cat", some (Box4.mk 0 0 1 1)⟩ ⟨"", none⟩ ⟨"", none⟩).1.method = "otsu" :=
  (c4_first_success_short_circuit _ _ _ _).1 (by decide)

/-- Claim C6: the OCR adapter discards detections whose trimmed text
is empty or whose confidence is at most 0; if none remain it returns
the empty text and no box; otherwise the trimmed texts joined by
single spaces in emission order, and the union of the kept boxes (min
of lefts and tops, max of left+width and top+height) expanded by 5 px
per side, with only left and top clamped at 0. -/
theorem c6_ocr_adapter (data : List TessToken) :
    (data.filter tokenKept = [] → run_tesseract_ocr data = ("", none)) ∧
    (∀ k ks, data.filter tokenKept = k :: ks →
      run_tesseract_ocr data =
        (String.intercalate " " (pyTrim k.text :: ks.map fun d => pyTrim d.text),
         some (Box4.mk
           (max 0 (listMinI k.left (ks.map fun d => d.left) - 5))
           (max 0 (listMinI k.top (ks.map fun d => d.top) - 5))
           (listMaxI (k.left + k.width) (ks.map fun d => d.left + d.width) + 5)
           (listMaxI (k.top + k.height) (ks.map fun d => d.top + d.height) + 5)))) := by
  have hacc : (data.filterMap fun d => if tokenKept d then some (acceptedToken d) else none) =
      (data.filter tokenKept).map acceptedToken :=
    filterMap_if_eq_map_filter tokenKept acceptedToken data
  constructor
  · intro hnil
    unfold run_tesseract_ocr
    rw [hacc, hnil]
    rfl
  · intro k ks hcons
    unfold run_tesseract_ocr
    rw [hacc, hcons]
    simp only [List.map_cons]
    simp [acceptedToken, List.map_map, Function.comp_def]

/-- Witness for C6 at a concrete detection list with one rejected
token for each filter reason. -/
theorem c6_ocr_adapter_witness :
    run_tesseract_ocr
        [{ text := "cat", conf := 90, left := 10, top := 10, width := 30, height := 15 },
         { text := "dog", conf := -1, left := 2, top := 3, width := 4, height := 5 },
         { text := " hi ", conf := 5, left := 100, top := 200, width := 10, height := 10 }] =
      ("cat hi", some (Box4.mk 5 5 115 215)) := by
  have h := (c6_ocr_adapter
      [{ text := "cat", conf := 90, left := 10, top := 10, width := 30, height := 15 },
       { text := "dog", conf := -1, left := 2, top := 3, width := 4, height := 5 },
       { text := " hi ", conf := 5, left := 100, top := 200, width := 10, height := 10 }]).2
      { text := "cat", conf := 90, left := 10, top := 10, width := 30, height := 15 }
      [{ text := " hi ", conf := 5, left := 100, top := 200, width := 10, height := 10 }]
      (by decide)
  rw [h]
  decide

/-- Claim C7: for every accepted outcome the page-coordinate box is
the region bbox left and top added componentwise to the winning
stage's region-local OCR box. -/
theorem c7_page_coordinate_box (dict : String → Bool) (w h : Int) (roi : Roi)
    (r1 r2 r3 : StageResult) (rec : Record) (att : List String)
    (hp : processOneRoi dict w h roi r1 r2 r3 = some (rec, att))
    (hm : rec.ocr_method ≠ "none") :
    ∃ bb rel, (process_single_roi w h roi).2 = some bb ∧
      rec.ocr_bbox = some (Box4.mk (bb.left + rel.left) (bb.top + rel.top)
        (bb.left + rel.right) (bb.top + rel.bottom)) ∧
      ((rec.ocr_method = "otsu" ∧ r1.box = some rel) ∨
       (rec.ocr_method = "eroded" ∧ r2.box = some rel) ∨
       (rec.ocr_method = "fallback" ∧ r3.box = some rel)) := by
  unfold processOneRoi at hp
  rcases hpsr : process_single_roi w h roi with ⟨tname, obb⟩
  rw [hpsr] at hp
  cases obb with
  | none => simp at hp
  | some bb =>
    dsimp only at hp
    refine ⟨bb, ?_⟩
    by_cases h1 : stageAccepted dict r1 = true
    · have hbox : r1.box.isSome = true := by
        unfold stageAccepted at h1
        exact (Bool.and_eq_true_iff.mp h1).2
      cases hbx : r1.box with
      | none => rw [hbx] at hbox; exact Bool.noConfusion hbox
      | some rel =>
        simp only [resolveROI, if_pos h1, hbx] at hp
        simp only [Option.some.injEq, Prod.mk.injEq] at hp
        obtain ⟨hrec, hatt⟩ := hp
        refine ⟨rel, rfl, ?_, Or.inl ⟨?_, rfl⟩⟩
        · rw [← hrec]
        · rw [← hrec]
    · by_cases h2 : stageAccepted dict r2 = true
      · have hbox : r2.box.isSome = true := by
          unfold stageAccepted at h2
          exact (Bool.and_eq_true_iff.mp h2).2
        cases hbx : r2.box with
        | none => rw [hbx] at hbox; exact Bool.noConfusion hbox
        | some rel =>
          simp only [resolveROI, if_neg h1, if_pos h2, hbx] at hp
          simp only [Option.some.injEq, Prod.mk.injEq] at hp
          obtain ⟨hrec, hatt⟩ := hp
          refine ⟨rel, rfl, ?_, Or.inr (Or.inl ⟨?_, rfl⟩)⟩
          · rw [← hrec]
          · rw [← hrec]
      · by_cases h3 : stageAccepted dict r3 = true
        · have hbox : r3.box.isSome = true := by
            unfold stageAccepted at h3
            exact (Bool.and_eq_true_iff.mp h3).2
          cases hbx : r3.box with
          | none => rw [hbx] at hbox; exact Bool.noConfusion hbox
          | some rel =>
            simp only [resolveROI, if_neg h1, if_neg h2, if_pos h3, hbx] at hp
            simp only [Option.some.injEq, Prod.mk.injEq] at hp
            obtain ⟨hrec, hatt⟩ := hp
            refine ⟨rel, rfl, ?_, Or.inr (Or.inr ⟨?_, rfl⟩)⟩
            · rw [← hrec]
            · rw [← hrec]
        · simp only [resolveROI, if_neg h1, if_neg h2, if_neg h3] at hp
          simp only [Option.some.injEq, Prod.mk.injEq] at hp
          obtain ⟨hrec, hatt⟩ := hp
          exact absurd (by rw [← hrec]) hm

/-- Witness for C7 at a concrete accepted first-stage outcome. -/
theorem c7_page_coordinate_box_witness :
    ∃ bb rel,
      (process_single_roi 500 400
          { roitype := RoiType.rect, left := 100, top := 50, right := 180, bottom := 90,
            coords := none }).2 = some bb ∧
      ({ roi_type := "Rectangular", ocr_text := "cat",
         ocr_bbox := some (Box4.mk 95 45 115 55), ocr_method := "otsu" } : Record).ocr_bbox =
        some (Box4.mk (bb.left + rel.left) (bb.top + rel.top)
          (bb.left + rel.right) (bb.top + rel.bottom)) ∧
      ((({ roi_type := "Rectangular", ocr_text := "cat",
           ocr_bbox := some (Box4.mk 95 45 115 55), ocr_method := "otsu" } : Record).ocr_method
            = "otsu" ∧
          (⟨"cat", some (Box4.mk 0 0 20 10)⟩ : StageResult).box = some rel) ∨
       (({ roi_type := "Rectangular", ocr_text := "cat",
           ocr_bbox := some (Box4.mk 95 45 115 55), ocr_method := "otsu" } : Record).ocr_method
            = "eroded" ∧
          (⟨"", none⟩ : StageResult).box = some rel) ∨
       (({ roi_type := "Rectangular", ocr_text := "cat",
           ocr_bbox := some (Box4.mk 95 45 115 55), ocr_method := "otsu" } : Record).ocr_method
            = "fallback" ∧
          (⟨"", none⟩ : StageResult).box = some rel)) :=
  c7_page_coordinate_box (fun t => t == "cat") 500 400
    { roitype := RoiType.rect, left := 100, top := 50, right := 180, bottom := 90,
      coords := none }
    ⟨"cat", some (Box4.mk 0 0 20 10)⟩ ⟨"", none⟩ ⟨"", none⟩
    { roi_type := "Rectangular", ocr_text := "cat",
      ocr_bbox := some (Box4.mk 95 45 115 55), ocr_method := "otsu" }
    ["otsu"] (by decide) (by decide)

/-- Claim C8: a freehand ROI with no coordinate data or fewer than
two vertices is skipped by the batch loop: no record is emitted for
it and processing continues with the remaining ROIs. -/
theorem c8_insufficient_geometry_skip (dict : String → Bool) (w h : Int)
    (x : RoiInput) (xs : List RoiInput)
    (hf : x.roi.roitype = RoiType.freehand)
    (hc : x.roi.coords = none ∨ ∃ cs, x.roi.coords = some cs ∧ cs.length < 2) :
    processROIs dict w h (x :: xs) = processROIs dict w h xs := by
  have hiso : process_single_roi w h x.roi = ("Freehand", none) := by
    unfold process_single_roi
    rcases hc with hc | ⟨cs, hcs, hlen⟩
    · simp only [hf, hc]
    · simp only [hf, hcs]
      rw [if_pos hlen]
  have hnone : processOneRoi dict w h x.roi x.r1 x.r2 x.r3 = none := by
    unfold processOneRoi
    rw [hiso]
  simp only [processROIs, hnone]

/-- Witness for C8: a one-vertex freehand ROI followed by a rectangle
ROI; the batch output is that of the rectangle alone. -/
theorem c8_insufficient_geometry_skip_witness :
    processROIs (fun _ => false) 500 400
        [{ roi := { roitype := RoiType.freehand, left := 0, top := 0, right := 0,
                    bottom := 0, coords := some [(3, 4)] },
           r1 := ⟨"", none⟩, r2 := ⟨"", none⟩, r3 := ⟨"", none⟩ },
         { roi := { roitype := RoiType.rect, left := 100, top := 50, right := 180,
                    bottom := 90, coords := none },
           r1 := ⟨"cat", some (Box4.mk 0 0 20 10)⟩, r2 := ⟨"", none⟩, r3 := ⟨"", none⟩ }] =
      processROIs (fun _ => false) 500 400
        [{ roi := { roitype := RoiType.rect, left := 100, top := 50, right := 180,
                    bottom := 90, coords := none },
           r1 := ⟨"cat", some (Box4.mk 0 0 20 10)⟩, r2 := ⟨"", none⟩, r3 := ⟨"", none⟩ }] :=
  c8_insufficient_geometry_skip _ _ _ _ _ rfl (Or.inr ⟨[(3, 4)], rfl, by decide⟩)

end PicdicExtract
